import Mathlib

/-!
Shallow embedding of `src/array.rs` of libpd-rs: a thin safe wrapper over the
external libpd engine's named-array API (size query, resize, float/double
read/write).

Modelling conventions:
* A Rust `&str` name is a byte string `List Nat`; `CString::new` succeeds iff
  the bytes contain no NUL (0) byte.
* A Rust panic (the `.expect(C_STRING_FAILURE)` path) is the `none` value of
  the surrounding `Option`; a returned `Result` is `Except LibpdError _`.
* The `libpd_sys` FFI entry points are external to the repository, so each
  wrapper takes the entry point it calls as an explicit function parameter;
  mutation through a raw pointer is modelled by the entry point returning the
  written-to buffer (for reads) or the engine state (for writes/resizes)
  alongside its `Int` status code.
* Element values (`f32` / `f64`) are only ever copied, never computed with, so
  buffers are `List α` for an arbitrary element type `α`.
-/

/-- Error kind for read/write failures, from the repository's error taxonomy:
out-of-bounds access or a non-existent named array. -/
inductive ArrayError where
  | OutOfBounds
  | NonExistent
deriving DecidableEq, Repr

/-- Error kind for size query / resize failures. -/
inductive SizeError where
  | CouldNotDetermine
deriving DecidableEq, Repr

/-- Top-level error type returned by the wrapper functions. -/
inductive LibpdError where
  | ArrayError (err : ArrayError)
  | SizeError (err : SizeError)
deriving DecidableEq, Repr

/-- Model of `CString::new`: succeeds with the same bytes iff no NUL byte is
present, otherwise fails (the wrapper then panics via `.expect`). -/
def cstringNew (s : List Nat) : Option (List Nat) :=
  if s.contains 0 then none else some s

/-- Embedding of `array_size` (src/array.rs lines 16-26): convert the name,
call `libpd_arraysize`, return the result when non-negative, otherwise the
`CouldNotDetermine` size error. -/
def array_size (libpd_arraysize : List Nat → Int) (name : List Nat) :
    Option (Except LibpdError Int) :=
  match cstringNew name with
  | none => none
  | some cname =>
    let result := libpd_arraysize cname
    if 0 ≤ result then some (Except.ok result)
    else some (Except.error (LibpdError.SizeError SizeError.CouldNotDetermine))

/-- Embedding of `resize_array` (src/array.rs lines 44-53): convert the name,
call `libpd_resize_array` with the requested size as given, `Ok` on status 0
and the `CouldNotDetermine` size error on any other status.  The engine state
it mutates is an abstract `σ` returned by the entry point. -/
def resize_array {σ : Type} (libpd_resize_array : List Nat → Int → Int × σ)
    (name : List Nat) (size : Int) : Option (Except LibpdError Unit × σ) :=
  match cstringNew name with
  | none => none
  | some cname =>
    let r := libpd_resize_array cname size
    if r.1 = 0 then some (Except.ok (), r.2)
    else some (Except.error (LibpdError.SizeError SizeError.CouldNotDetermine), r.2)

/-- Embedding of `read_float_array_from` (src/array.rs lines 72-93): convert
the name, call `libpd_read_array` with the destination buffer, name, offset
and amount, then map status 0 to `Ok`, -2 to `OutOfBounds` and anything else
to `NonExistent`.  No check against `destination.length` is performed. -/
def read_float_array_from {α : Type}
    (libpd_read_array : List α → List Nat → Int → Int → Int × List α)
    (source_name : List Nat) (read_amount : Int) (destination : List α)
    (destination_offset : Int) : Option (Except LibpdError Unit × List α) :=
  match cstringNew source_name with
  | none => none
  | some name =>
    let r := libpd_read_array destination name destination_offset read_amount
    if r.1 = 0 then some (Except.ok (), r.2)
    else if r.1 = -2 then
      some (Except.error (LibpdError.ArrayError ArrayError.OutOfBounds), r.2)
    else some (Except.error (LibpdError.ArrayError ArrayError.NonExistent), r.2)

/-- Embedding of `read_double_array_from` (src/array.rs lines 152-173): same
shape as the float variant but calling `libpd_read_array_double`. -/
def read_double_array_from {α : Type}
    (libpd_read_array_double : List α → List Nat → Int → Int → Int × List α)
    (source_name : List Nat) (read_amount : Int) (destination : List α)
    (destination_offset : Int) : Option (Except LibpdError Unit × List α) :=
  match cstringNew source_name with
  | none => none
  | some name =>
    let r := libpd_read_array_double destination name destination_offset read_amount
    if r.1 = 0 then some (Except.ok (), r.2)
    else if r.1 = -2 then
      some (Except.error (LibpdError.ArrayError ArrayError.OutOfBounds), r.2)
    else some (Except.error (LibpdError.ArrayError ArrayError.NonExistent), r.2)

/-- Embedding of `write_float_array_to` (src/array.rs lines 112-133): convert
the name, call `libpd_write_array` with name, offset, source buffer and
amount, then map status 0 to `Ok`, -2 to `OutOfBounds` and anything else to
`NonExistent`.  The engine state it mutates is an abstract `σ`. -/
def write_float_array_to {α σ : Type}
    (libpd_write_array : List Nat → Int → List α → Int → Int × σ)
    (destination_name : List Nat) (destination_offset : Int) (source : List α)
    (read_amount : Int) : Option (Except LibpdError Unit × σ) :=
  match cstringNew destination_name with
  | none => none
  | some name =>
    let r := libpd_write_array name destination_offset source read_amount
    if r.1 = 0 then some (Except.ok (), r.2)
    else if r.1 = -2 then
      some (Except.error (LibpdError.ArrayError ArrayError.OutOfBounds), r.2)
    else some (Except.error (LibpdError.ArrayError ArrayError.NonExistent), r.2)

/-- Embedding of `write_double_array_to` (src/array.rs lines 192-213): same
shape as the float variant but calling `libpd_write_array_double`. -/
def write_double_array_to {α σ : Type}
    (libpd_write_array_double : List Nat → Int → List α → Int → Int × σ)
    (destination_name : List Nat) (destination_offset : Int) (source : List α)
    (read_amount : Int) : Option (Except LibpdError Unit × σ) :=
  match cstringNew destination_name with
  | none => none
  | some name =>
    let r := libpd_write_array_double name destination_offset source read_amount
    if r.1 = 0 then some (Except.ok (), r.2)
    else if r.1 = -2 then
      some (Except.error (LibpdError.ArrayError ArrayError.OutOfBounds), r.2)
    else some (Except.error (LibpdError.ArrayError ArrayError.NonExistent), r.2)

/-- The read/write status mapping as the spec states it: status 0 is success,
status -2 is the out-of-bounds error, every other status is the non-existent
array error. -/
def statusToResult (s : Int) : Except LibpdError Unit :=
  if s = 0 then Except.ok ()
  else if s = -2 then Except.error (LibpdError.ArrayError ArrayError.OutOfBounds)
  else Except.error (LibpdError.ArrayError ArrayError.NonExistent)

/-- Modelled from the spec: the state of the external libpd engine, which is
not part of this repository.  It owns a set of named arrays (an association
list from byte-string names to element lists), has an internal size limit for
resize requests, and a padding element used to extend arrays on resize. -/
structure Engine (α : Type) where
  arrays : List (List Nat × List α)
  sizeLimit : Nat
  pad : α
deriving Repr

/-- Replace the value stored under `key` in an association list, leaving all
other entries (and the list structure) unchanged. -/
def updateAssoc {κ β : Type} [BEq κ] (l : List (κ × β)) (key : κ) (v : β) :
    List (κ × β) :=
  l.map fun p => if p.1 == key then (key, v) else p

/-- Resize a list to exactly `n` elements, keeping the existing prefix and
padding with `p` when growing. -/
def resizeList {α : Type} (xs : List α) (n : Nat) (p : α) : List α :=
  xs.take n ++ List.replicate (n - xs.length) p

/-- Overwrite `src.length` elements of `dst` starting at `offset` with the
elements of `src`, leaving the rest of `dst` unchanged. -/
def writeSlice {α : Type} (dst : List α) (offset : Nat) (src : List α) : List α :=
  dst.take offset ++ src ++ dst.drop (offset + src.length)

/-- Modelled from the spec: the external engine entry point `libpd_arraysize`
(`get_array_size(name) -> integer`, negative = error).  Returns the element
count of the named array, or a negative code when no array has that name. -/
def Engine.arraysize {α : Type} (e : Engine α) (name : List Nat) : Int :=
  match e.arrays.lookup name with
  | some xs => (xs.length : Int)
  | none => -1

/-- The engine's clipping policy for resize requests: a non-positive or
over-limit requested size becomes 1 element. -/
def clipSize (limit : Nat) (size : Int) : Nat :=
  if size ≤ 0 ∨ (limit : Int) < size then 1 else size.toNat

/-- Modelled from the spec: the external engine entry point
`libpd_resize_array` (`resize_array(name, new_size) -> integer`, 0 = success,
nonzero = error if non-existent).  A requested size that is non-positive or
over the engine's internal limit is clipped to 1 element; arrays grow padded
with the engine's padding element. -/
def Engine.resizeArray {α : Type} (e : Engine α) (name : List Nat) (size : Int) :
    Int × Engine α :=
  match e.arrays.lookup name with
  | none => (-1, e)
  | some xs =>
    (0, { e with
      arrays := updateAssoc e.arrays name (resizeList xs (clipSize e.sizeLimit size) e.pad) })

/-- Modelled from the spec: the external engine entry points `libpd_read_array`
and `libpd_read_array_double` (`read_array(dest, name, offset, count)`):
copies `count` consecutive elements starting at index 0 of the named source
array into the destination buffer beginning at `offset`.  Status 0 on
success; -2 when `offset + count` exceeds the source array's actual length
(negative offsets or counts are likewise rejected as out of range); any other
negative code when the array is non-existent.  The destination buffer's own
length is never consulted. -/
def Engine.readArray {α : Type} (e : Engine α) (dest : List α) (name : List Nat)
    (offset n : Int) : Int × List α :=
  match e.arrays.lookup name with
  | none => (-1, dest)
  | some xs =>
    if offset < 0 ∨ n < 0 ∨ (xs.length : Int) < offset + n then (-2, dest)
    else (0, writeSlice dest offset.toNat (xs.take n.toNat))

/-- Modelled from the spec: the external engine entry points
`libpd_write_array` and `libpd_write_array_double`
(`write_array(name, offset, src, count)`): copies `count` elements from the
source buffer into the named destination array starting at `offset`.  Same
status codes as the read entry point; on any failure the engine state is
unchanged. -/
def Engine.writeArray {α : Type} (e : Engine α) (name : List Nat) (offset : Int)
    (src : List α) (n : Int) : Int × Engine α :=
  match e.arrays.lookup name with
  | none => (-1, e)
  | some xs =>
    if offset < 0 ∨ n < 0 ∨ (xs.length : Int) < offset + n then (-2, e)
    else (0, { e with
      arrays := updateAssoc e.arrays name (writeSlice xs offset.toNat (src.take n.toNat)) })

example : array_size (fun _ => 5) [97] = some (Except.ok 5) := by rfl

example : array_size (fun _ => -1) [97]
    = some (Except.error (LibpdError.SizeError SizeError.CouldNotDetermine)) := by rfl

example : array_size (fun _ => 5) [97, 0, 98] = none := by rfl

example :
    (Engine.mk [([97], [10, 20])] 100 (0 : Int)).readArray [0, 0] [97] 1 1
      = (0, [0, 10]) := by rfl

example :
    ((Engine.mk [([97], [10, 20])] 100 (0 : Int)).writeArray [97] 1 [99] 1).2.arrays
      = [([97], [10, 99])] := by rfl

theorem rwBranch_eq {σ : Type} (c : Int) (x : σ) :
    (if c = 0 then some (Except.ok (), x)
     else if c = -2 then
       some (Except.error (LibpdError.ArrayError ArrayError.OutOfBounds), x)
     else some (Except.error (LibpdError.ArrayError ArrayError.NonExistent), x))
      = some (statusToResult c, x) := by
  unfold statusToResult
  split_ifs <;> rfl

theorem lookup_updateAssoc {κ β : Type} [BEq κ] [LawfulBEq κ]
    (l : List (κ × β)) (key : κ) (v : β) (h : (List.lookup key l).isSome) :
    List.lookup key (updateAssoc l key v) = some v := by
  induction l with
  | nil => simp [List.lookup] at h
  | cons p t ih =>
    obtain ⟨k, w⟩ := p
    by_cases hk : key = k
    · subst hk
      have h1 : updateAssoc ((key, w) :: t) key v = (key, v) :: updateAssoc t key v := by
        simp [updateAssoc]
      rw [h1]
      simp [List.lookup]
    · have hk2 : (key == k) = false := beq_eq_false_iff_ne.mpr hk
      have hk1 : (k == key) = false := beq_eq_false_iff_ne.mpr (Ne.symm hk)
      have h1 : updateAssoc ((k, w) :: t) key v = (k, w) :: updateAssoc t key v := by
        simp [updateAssoc, hk1]
      rw [h1]
      simp only [List.lookup, hk2] at h ⊢
      exact ih h

theorem resizeList_length {α : Type} (xs : List α) (n : Nat) (p : α) :
    (resizeList xs n p).length = n := by
  simp only [resizeList, List.length_append, List.length_take, List.length_replicate]
  omega

/-- Claim C1: for every read and write operation (both 32-bit and 64-bit
variants), the engine's status code is mapped to the result as follows:
status 0 yields success, status -2 yields the `OutOfBounds` array error, and
every other status yields the `NonExistent` array error; no status is
silently swallowed (the wrapper always returns the mapped outcome together
with whatever the engine produced). -/
theorem read_write_status_mapping {α β σ τ : Type}
    (ffiR32 : List α → List Nat → Int → Int → Int × List α)
    (ffiR64 : List β → List Nat → Int → Int → Int × List β)
    (ffiW32 : List Nat → Int → List α → Int → Int × σ)
    (ffiW64 : List Nat → Int → List β → Int → Int × τ)
    (name : List Nat) (amt off : Int) (d32 : List α) (d64 : List β)
    (s32 : List α) (s64 : List β) (h : ¬ name.contains 0) :
    read_float_array_from ffiR32 name amt d32 off
      = some (statusToResult (ffiR32 d32 name off amt).1, (ffiR32 d32 name off amt).2) ∧
    read_double_array_from ffiR64 name amt d64 off
      = some (statusToResult (ffiR64 d64 name off amt).1, (ffiR64 d64 name off amt).2) ∧
    write_float_array_to ffiW32 name off s32 amt
      = some (statusToResult (ffiW32 name off s32 amt).1, (ffiW32 name off s32 amt).2) ∧
    write_double_array_to ffiW64 name off s64 amt
      = some (statusToResult (ffiW64 name off s64 amt).1, (ffiW64 name off s64 amt).2) := by
  have hn : name.contains 0 = false := by simpa using h
  refine ⟨?_, ?_, ?_, ?_⟩
  · simp only [read_float_array_from, cstringNew, hn, Bool.false_eq_true, if_false]
    exact rwBranch_eq _ _
  · simp only [read_double_array_from, cstringNew, hn, Bool.false_eq_true, if_false]
    exact rwBranch_eq _ _
  · simp only [write_float_array_to, cstringNew, hn, Bool.false_eq_true, if_false]
    exact rwBranch_eq _ _
  · simp only [write_double_array_to, cstringNew, hn, Bool.false_eq_true, if_false]
    exact rwBranch_eq _ _

theorem read_write_status_mapping_wit :
    read_float_array_from (fun d _ _ _ => ((-2 : Int), d)) [97] 1 [(5 : Int)] 0
      = some (statusToResult (-2), [(5 : Int)]) ∧
    read_double_array_from (fun d _ _ _ => ((0 : Int), d)) [97] 1 [(5 : Int)] 0
      = some (statusToResult 0, [(5 : Int)]) ∧
    write_float_array_to (fun _ _ _ _ => ((-1 : Int), (7 : Nat))) [97] 0 [(5 : Int)] 1
      = some (statusToResult (-1), (7 : Nat)) ∧
    write_double_array_to (fun _ _ _ _ => ((3 : Int), (7 : Nat))) [97] 0 [(5 : Int)] 1
      = some (statusToResult 3, (7 : Nat)) :=
  read_write_status_mapping (fun d _ _ _ => ((-2 : Int), d))
    (fun d _ _ _ => ((0 : Int), d)) (fun _ _ _ _ => ((-1 : Int), (7 : Nat)))
    (fun _ _ _ _ => ((3 : Int), (7 : Nat))) [97] 1 0 [(5 : Int)] [(5 : Int)]
    [(5 : Int)] [(5 : Int)] (by decide)

/-- Claim C2: the size query returns the element count reported by the engine
whenever that report is non-negative (including zero), and returns the
`CouldNotDetermine` size error exactly when the engine reports a negative
value. -/
theorem array_size_mapping (ffi : List Nat → Int) (name : List Nat)
    (h : ¬ name.contains 0) :
    (0 ≤ ffi name → array_size ffi name = some (Except.ok (ffi name))) ∧
    (array_size ffi name
        = some (Except.error (LibpdError.SizeError SizeError.CouldNotDetermine))
      ↔ ffi name < 0) := by
  have hn : (0 : Nat) ∉ name := by simpa using h
  by_cases h0 : 0 ≤ ffi name
  · have he : array_size ffi name = some (Except.ok (ffi name)) := by
      simp [array_size, cstringNew, h0, hn]
    refine ⟨fun _ => he, ?_⟩
    rw [he]
    constructor
    · intro hc
      simp at hc
    · intro hlt
      omega
  · have he : array_size ffi name
        = some (Except.error (LibpdError.SizeError SizeError.CouldNotDetermine)) := by
      simp [array_size, cstringNew, h0, hn]
    refine ⟨fun hc => absurd hc h0, ?_⟩
    rw [he]
    constructor
    · intro _
      omega
    · intro _
      rfl

theorem array_size_mapping_wit :
    (0 ≤ (5 : Int) → array_size (fun _ => (5 : Int)) [97] = some (Except.ok 5)) ∧
    (array_size (fun _ => (5 : Int)) [97]
        = some (Except.error (LibpdError.SizeError SizeError.CouldNotDetermine))
      ↔ (5 : Int) < 0) :=
  array_size_mapping (fun _ => (5 : Int)) [97] (by decide)

/-- Claim C3: resize succeeds exactly when the engine reports a zero status
and returns the `CouldNotDetermine` size error for every non-zero status; the
wrapper hands the engine exactly the name and the requested size unmodified,
with no pre-validation of non-positive or over-limit sizes (the equation
holds for every `size`, with no side condition on it). -/
theorem resize_array_mapping {σ : Type} (ffi : List Nat → Int → Int × σ)
    (name : List Nat) (size : Int) (h : ¬ name.contains 0) :
    resize_array ffi name size
      = some ((if (ffi name size).1 = 0 then Except.ok ()
               else Except.error (LibpdError.SizeError SizeError.CouldNotDetermine)),
              (ffi name size).2) := by
  have hn : name.contains 0 = false := by simpa using h
  simp only [resize_array, cstringNew, hn, Bool.false_eq_true, if_false]
  split_ifs <;> rfl

theorem resize_array_mapping_wit :
    resize_array (fun _ _ => ((-1 : Int), (3 : Nat))) [97] (-7)
      = some ((if ((fun (_ : List Nat) (_ : Int) => ((-1 : Int), (3 : Nat))) [97] (-7)).1 = 0
               then Except.ok ()
               else Except.error (LibpdError.SizeError SizeError.CouldNotDetermine)),
              ((fun (_ : List Nat) (_ : Int) => ((-1 : Int), (3 : Nat))) [97] (-7)).2) :=
  resize_array_mapping (fun _ _ => ((-1 : Int), (3 : Nat))) [97] (-7) (by decide)

/-- Claim C7: a supplied name containing an interior null byte causes a
panic (modelled as `none`) in every operation, rather than a returned typed
error: the outcome is never `some` of anything, so the failure is not
propagated as one of the typed error kinds. -/
theorem interior_null_panics {α σ τ : Type} (ffiS : List Nat → Int)
    (ffiRz : List Nat → Int → Int × σ)
    (ffiR : List α → List Nat → Int → Int → Int × List α)
    (ffiW : List Nat → Int → List α → Int → Int × τ)
    (name : List Nat) (amt off size : Int) (d s : List α)
    (h : name.contains 0) :
    array_size ffiS name = none ∧
    resize_array ffiRz name size = none ∧
    read_float_array_from ffiR name amt d off = none ∧
    read_double_array_from ffiR name amt d off = none ∧
    write_float_array_to ffiW name off s amt = none ∧
    write_double_array_to ffiW name off s amt = none := by
  have hm : (0 : Nat) ∈ name := by simpa using h
  refine ⟨?_, ?_, ?_, ?_, ?_, ?_⟩ <;>
    simp [array_size, resize_array, read_float_array_from, read_double_array_from,
      write_float_array_to, write_double_array_to, cstringNew, hm]

theorem interior_null_panics_wit :
    array_size (fun _ => (5 : Int)) [97, 0, 98] = none ∧
    resize_array (fun _ _ => ((0 : Int), (3 : Nat))) [97, 0, 98] 4 = none ∧
    read_float_array_from (fun d _ _ _ => ((0 : Int), d)) [97, 0, 98] 1 [(5 : Int)] 0 = none ∧
    read_double_array_from (fun d _ _ _ => ((0 : Int), d)) [97, 0, 98] 1 [(5 : Int)] 0 = none ∧
    write_float_array_to (fun _ _ _ _ => ((0 : Int), (3 : Nat))) [97, 0, 98] 0 [(5 : Int)] 1 = none ∧
    write_double_array_to (fun _ _ _ _ => ((0 : Int), (3 : Nat))) [97, 0, 98] 0 [(5 : Int)] 1 = none :=
  interior_null_panics (fun _ => (5 : Int)) (fun _ _ => ((0 : Int), (3 : Nat)))
    (fun d _ _ _ => ((0 : Int), d)) (fun _ _ _ _ => ((0 : Int), (3 : Nat)))
    [97, 0, 98] 1 0 4 [(5 : Int)] [(5 : Int)] (by decide)

/-- Claim C10: for every name without interior null bytes — including the
empty name and negative offset, count or size arguments — no operation
panics: string conversion succeeds and every outcome is returned as a typed
success or error value (`some`), for every possible engine entry point. -/
theorem no_panic_without_interior_null {α σ τ : Type} (ffiS : List Nat → Int)
    (ffiRz : List Nat → Int → Int × σ)
    (ffiR : List α → List Nat → Int → Int → Int × List α)
    (ffiW : List Nat → Int → List α → Int → Int × τ)
    (name : List Nat) (amt off size : Int) (d s : List α)
    (h : ¬ name.contains 0) :
    (array_size ffiS name).isSome ∧
    (resize_array ffiRz name size).isSome ∧
    (read_float_array_from ffiR name amt d off).isSome ∧
    (read_double_array_from ffiR name amt d off).isSome ∧
    (write_float_array_to ffiW name off s amt).isSome ∧
    (write_double_array_to ffiW name off s amt).isSome := by
  have hn : name.contains 0 = false := by simpa using h
  refine ⟨?_, ?_, ?_, ?_, ?_, ?_⟩
  · simp only [array_size, cstringNew, hn, Bool.false_eq_true, if_false]
    split_ifs <;> rfl
  · simp only [resize_array, cstringNew, hn, Bool.false_eq_true, if_false]
    split_ifs <;> rfl
  · simp only [read_float_array_from, cstringNew, hn, Bool.false_eq_true, if_false]
    split_ifs <;> rfl
  · simp only [read_double_array_from, cstringNew, hn, Bool.false_eq_true, if_false]
    split_ifs <;> rfl
  · simp only [write_float_array_to, cstringNew, hn, Bool.false_eq_true, if_false]
    split_ifs <;> rfl
  · simp only [write_double_array_to, cstringNew, hn, Bool.false_eq_true, if_false]
    split_ifs <;> rfl

theorem no_panic_without_interior_null_wit :
    (array_size (fun _ => (-3 : Int)) []).isSome ∧
    (resize_array (fun _ _ => ((1 : Int), (3 : Nat))) [] (-9)).isSome ∧
    (read_float_array_from (fun d _ _ _ => ((-2 : Int), d)) [] (-1) ([] : List Int) (-1)).isSome ∧
    (read_double_array_from (fun d _ _ _ => ((-2 : Int), d)) [] (-1) ([] : List Int) (-1)).isSome ∧
    (write_float_array_to (fun _ _ _ _ => ((-5 : Int), (3 : Nat))) [] (-1) ([] : List Int) (-1)).isSome ∧
    (write_double_array_to (fun _ _ _ _ => ((-5 : Int), (3 : Nat))) [] (-1) ([] : List Int) (-1)).isSome :=
  no_panic_without_interior_null (fun _ => (-3 : Int)) (fun _ _ => ((1 : Int), (3 : Nat)))
    (fun d _ _ _ => ((-2 : Int), d)) (fun _ _ _ _ => ((-5 : Int), (3 : Nat)))
    [] (-1) (-1) (-9) ([] : List Int) ([] : List Int) (by decide)

/-- Claim C8: the 32-bit and 64-bit variants of read (and likewise of write)
are behaviorally identical apart from element precision: given the same name,
offset and count, and engine entry points that report the same status codes,
they produce the same success/error outcome, differing only in which engine
entry point they invoke. -/
theorem precision_variants_agree {α β σ τ : Type}
    (ffiR32 : List α → List Nat → Int → Int → Int × List α)
    (ffiR64 : List β → List Nat → Int → Int → Int × List β)
    (ffiW32 : List Nat → Int → List α → Int → Int × σ)
    (ffiW64 : List Nat → Int → List β → Int → Int × τ)
    (name : List Nat) (amt off : Int) (d32 : List α) (d64 : List β)
    (s32 : List α) (s64 : List β)
    (hr : (ffiR32 d32 name off amt).1 = (ffiR64 d64 name off amt).1)
    (hw : (ffiW32 name off s32 amt).1 = (ffiW64 name off s64 amt).1) :
    (read_float_array_from ffiR32 name amt d32 off).map Prod.fst
      = (read_double_array_from ffiR64 name amt d64 off).map Prod.fst ∧
    (write_float_array_to ffiW32 name off s32 amt).map Prod.fst
      = (write_double_array_to ffiW64 name off s64 amt).map Prod.fst := by
  by_cases hc : name.contains 0
  · have hm : (0 : Nat) ∈ name := by simpa using hc
    constructor <;>
      simp [read_float_array_from, read_double_array_from, write_float_array_to,
        write_double_array_to, cstringNew, hm]
  · have hn : name.contains 0 = false := by simpa using hc
    constructor
    · have e1 : read_float_array_from ffiR32 name amt d32 off
          = some (statusToResult (ffiR32 d32 name off amt).1, (ffiR32 d32 name off amt).2) := by
        simp only [read_float_array_from, cstringNew, hn, Bool.false_eq_true, if_false]
        exact rwBranch_eq _ _
      have e2 : read_double_array_from ffiR64 name amt d64 off
          = some (statusToResult (ffiR64 d64 name off amt).1, (ffiR64 d64 name off amt).2) := by
        simp only [read_double_array_from, cstringNew, hn, Bool.false_eq_true, if_false]
        exact rwBranch_eq _ _
      rw [e1, e2, hr]
      rfl
    · have e1 : write_float_array_to ffiW32 name off s32 amt
          = some (statusToResult (ffiW32 name off s32 amt).1, (ffiW32 name off s32 amt).2) := by
        simp only [write_float_array_to, cstringNew, hn, Bool.false_eq_true, if_false]
        exact rwBranch_eq _ _
      have e2 : write_double_array_to ffiW64 name off s64 amt
          = some (statusToResult (ffiW64 name off s64 amt).1, (ffiW64 name off s64 amt).2) := by
        simp only [write_double_array_to, cstringNew, hn, Bool.false_eq_true, if_false]
        exact rwBranch_eq _ _
      rw [e1, e2, hw]
      rfl

theorem precision_variants_agree_wit :
    (read_float_array_from (fun d _ _ _ => ((-2 : Int), d)) [97] 1 [(5 : Int)] 0).map Prod.fst
      = (read_double_array_from (fun d _ _ _ => ((-2 : Int), d)) [97] 1 [(6 : Int), 7] 0).map Prod.fst ∧
    (write_float_array_to (fun _ _ _ _ => ((0 : Int), (3 : Nat))) [97] 0 [(5 : Int)] 1).map Prod.fst
      = (write_double_array_to (fun _ _ _ _ => ((0 : Int), true)) [97] 0 [(6 : Int), 7] 1).map Prod.fst :=
  precision_variants_agree (fun d _ _ _ => ((-2 : Int), d)) (fun d _ _ _ => ((-2 : Int), d))
    (fun _ _ _ _ => ((0 : Int), (3 : Nat))) (fun _ _ _ _ => ((0 : Int), true))
    [97] 1 0 [(5 : Int)] [(6 : Int), 7] [(5 : Int)] [(6 : Int), 7] (by decide) (by decide)

/-- Claim C4: clipping law.  For every existing array, resizing to `new_size`
succeeds, and a following size query yields `new_size` when `new_size > 0`
and within the engine's limit, and yields 1 when `new_size ≤ 0` (the engine
is the spec-modelled external engine). -/
theorem resize_clipping_law {α : Type} (e : Engine α) (name : List Nat)
    (xs : List α) (new_size : Int)
    (hn : ¬ name.contains 0) (hx : List.lookup name e.arrays = some xs) :
    ∃ e₂ : Engine α,
      resize_array e.resizeArray name new_size = some (Except.ok (), e₂) ∧
      (0 < new_size → new_size ≤ (e.sizeLimit : Int) →
        array_size e₂.arraysize name = some (Except.ok new_size)) ∧
      (new_size ≤ 0 → array_size e₂.arraysize name = some (Except.ok 1)) := by
  have hm : (0 : Nat) ∉ name := by simpa using hn
  have hres : e.resizeArray name new_size
      = (0, { e with
          arrays := updateAssoc e.arrays name
                      (resizeList xs (clipSize e.sizeLimit new_size) e.pad) }) := by
    simp only [Engine.resizeArray, hx]
  have hxs : (List.lookup name e.arrays).isSome := by rw [hx]; rfl
  have hsz : ∀ m : Nat,
      ({ e with arrays := updateAssoc e.arrays name (resizeList xs m e.pad) } :
          Engine α).arraysize name = (m : Int) := by
    intro m
    simp only [Engine.arraysize, lookup_updateAssoc _ _ _ hxs, resizeList_length]
  refine ⟨(e.resizeArray name new_size).2, ?_, ?_, ?_⟩
  · simp [resize_array, cstringNew, hm, hres]
  · intro hpos hlim
    have hclip : clipSize e.sizeLimit new_size = new_size.toNat := by
      unfold clipSize
      rw [if_neg (by omega)]
    have hcast : (new_size.toNat : Int) = new_size := Int.toNat_of_nonneg (le_of_lt hpos)
    rw [hres]
    rw [hclip]
    simp [array_size, cstringNew, hm, hsz new_size.toNat, hcast, le_of_lt hpos]
  · intro hneg
    have hclip : clipSize e.sizeLimit new_size = 1 := by
      unfold clipSize
      rw [if_pos (Or.inl hneg)]
    rw [hres]
    rw [hclip]
    simp [array_size, cstringNew, hm, hsz 1]

theorem resize_clipping_law_wit :
    ∃ e₂ : Engine Int,
      resize_array (Engine.mk [([97], [5, 5, 5])] 100 (0 : Int)).resizeArray [97] 2
        = some (Except.ok (), e₂) ∧
      (0 < (2 : Int) → (2 : Int) ≤ ((Engine.mk [([97], [5, 5, 5])] 100 (0 : Int)).sizeLimit : Int) →
        array_size e₂.arraysize [97] = some (Except.ok 2)) ∧
      ((2 : Int) ≤ 0 → array_size e₂.arraysize [97] = some (Except.ok 1)) :=
  resize_clipping_law (Engine.mk [([97], [5, 5, 5])] 100 (0 : Int)) [97] [5, 5, 5] 2
    (by decide) (by rfl)

/-- Claim C6: atomicity on out-of-bounds.  For every read or write where
`offset + count` exceeds the named array's actual length, the `OutOfBounds`
array error is returned and no elements are copied: the caller's buffer is
returned unchanged by reads and the engine state is returned unchanged by
writes (engine modelled from the spec). -/
theorem out_of_bounds_atomicity {α : Type} (e : Engine α) (name : List Nat)
    (xs : List α) (offset count : Int) (dest src : List α)
    (hn : ¬ name.contains 0) (hx : List.lookup name e.arrays = some xs)
    (hoob : (xs.length : Int) < offset + count) :
    read_float_array_from e.readArray name count dest offset
      = some (Except.error (LibpdError.ArrayError ArrayError.OutOfBounds), dest) ∧
    read_double_array_from e.readArray name count dest offset
      = some (Except.error (LibpdError.ArrayError ArrayError.OutOfBounds), dest) ∧
    write_float_array_to e.writeArray name offset src count
      = some (Except.error (LibpdError.ArrayError ArrayError.OutOfBounds), e) ∧
    write_double_array_to e.writeArray name offset src count
      = some (Except.error (LibpdError.ArrayError ArrayError.OutOfBounds), e) := by
  have hm : (0 : Nat) ∉ name := by simpa using hn
  have hrd : e.readArray dest name offset count = (-2, dest) := by
    simp only [Engine.readArray, hx]
    rw [if_pos (Or.inr (Or.inr hoob))]
  have hwr : e.writeArray name offset src count = (-2, e) := by
    simp only [Engine.writeArray, hx]
    rw [if_pos (Or.inr (Or.inr hoob))]
  refine ⟨?_, ?_, ?_, ?_⟩ <;>
    simp [read_float_array_from, read_double_array_from, write_float_array_to,
      write_double_array_to, cstringNew, hm, hrd, hwr]

theorem out_of_bounds_atomicity_wit :
    read_float_array_from (Engine.mk [([97], [(5 : Int)])] 100 0).readArray [97] 1 [0] 1
      = some (Except.error (LibpdError.ArrayError ArrayError.OutOfBounds), [(0 : Int)]) ∧
    read_double_array_from (Engine.mk [([97], [(5 : Int)])] 100 0).readArray [97] 1 [0] 1
      = some (Except.error (LibpdError.ArrayError ArrayError.OutOfBounds), [(0 : Int)]) ∧
    write_float_array_to (Engine.mk [([97], [(5 : Int)])] 100 0).writeArray [97] 1 [9] 1
      = some (Except.error (LibpdError.ArrayError ArrayError.OutOfBounds),
              Engine.mk [([97], [(5 : Int)])] 100 0) ∧
    write_double_array_to (Engine.mk [([97], [(5 : Int)])] 100 0).writeArray [97] 1 [9] 1
      = some (Except.error (LibpdError.ArrayError ArrayError.OutOfBounds),
              Engine.mk [([97], [(5 : Int)])] 100 0) :=
  out_of_bounds_atomicity (Engine.mk [([97], [(5 : Int)])] 100 0) [97] [(5 : Int)]
    1 1 [0] [9] (by decide) (by rfl) (by decide)

/-- Claim C9: read performs no bounds validation of its own against the
destination buffer's capacity: even when `offset + count` exceeds the
destination's length the call is forwarded to the engine and its status is
returned mapped (first two conjuncts), and the success/error outcome is the
same for any two destination buffers whatsoever (last two conjuncts), in both
precisions (engine modelled from the spec; its status never consults the
destination). -/
theorem read_no_destination_bounds_check {α : Type} (e : Engine α)
    (name : List Nat) (amt off : Int) (d d₁ d₂ : List α)
    (hn : ¬ name.contains 0) (hshort : (d.length : Int) < off + amt) :
    read_float_array_from e.readArray name amt d off
      = some (statusToResult (e.readArray d name off amt).1, (e.readArray d name off amt).2) ∧
    read_double_array_from e.readArray name amt d off
      = some (statusToResult (e.readArray d name off amt).1, (e.readArray d name off amt).2) ∧
    (read_float_array_from e.readArray name amt d₁ off).map Prod.fst
      = (read_float_array_from e.readArray name amt d₂ off).map Prod.fst ∧
    (read_double_array_from e.readArray name amt d₁ off).map Prod.fst
      = (read_double_array_from e.readArray name amt d₂ off).map Prod.fst := by
  have hn' : name.contains 0 = false := by simpa using hn
  have hst : ∀ dx : List α,
      (e.readArray dx name off amt).1 = (e.readArray d₁ name off amt).1 := by
    intro dx
    simp only [Engine.readArray]
    cases List.lookup name e.arrays with
    | none => rfl
    | some xs =>
      dsimp only
      split_ifs <;> rfl
  have key : ∀ dx : List α, read_float_array_from e.readArray name amt dx off
      = some (statusToResult (e.readArray dx name off amt).1, (e.readArray dx name off amt).2) := by
    intro dx
    simp only [read_float_array_from, cstringNew, hn', Bool.false_eq_true, if_false]
    exact rwBranch_eq _ _
  have key2 : ∀ dx : List α, read_double_array_from e.readArray name amt dx off
      = some (statusToResult (e.readArray dx name off amt).1, (e.readArray dx name off amt).2) := by
    intro dx
    simp only [read_double_array_from, cstringNew, hn', Bool.false_eq_true, if_false]
    exact rwBranch_eq _ _
  refine ⟨key d, key2 d, ?_, ?_⟩
  · rw [key d₁, key d₂]
    simp [hst d₂]
  · rw [key2 d₁, key2 d₂]
    simp [hst d₂]

theorem read_no_destination_bounds_check_wit :
    read_float_array_from (Engine.mk [([97], [(5 : Int), 6, 7])] 100 0).readArray [97] 3 [] 0
      = some (statusToResult
                ((Engine.mk [([97], [(5 : Int), 6, 7])] 100 0).readArray [] [97] 0 3).1,
              ((Engine.mk [([97], [(5 : Int), 6, 7])] 100 0).readArray [] [97] 0 3).2) ∧
    read_double_array_from (Engine.mk [([97], [(5 : Int), 6, 7])] 100 0).readArray [97] 3 [] 0
      = some (statusToResult
                ((Engine.mk [([97], [(5 : Int), 6, 7])] 100 0).readArray [] [97] 0 3).1,
              ((Engine.mk [([97], [(5 : Int), 6, 7])] 100 0).readArray [] [97] 0 3).2) ∧
    (read_float_array_from (Engine.mk [([97], [(5 : Int), 6, 7])] 100 0).readArray
        [97] 3 [0] 0).map Prod.fst
      = (read_float_array_from (Engine.mk [([97], [(5 : Int), 6, 7])] 100 0).readArray
          [97] 3 [0, 0, 0, 0] 0).map Prod.fst ∧
    (read_double_array_from (Engine.mk [([97], [(5 : Int), 6, 7])] 100 0).readArray
        [97] 3 [0] 0).map Prod.fst
      = (read_double_array_from (Engine.mk [([97], [(5 : Int), 6, 7])] 100 0).readArray
          [97] 3 [0, 0, 0, 0] 0).map Prod.fst :=
  read_no_destination_bounds_check (Engine.mk [([97], [(5 : Int), 6, 7])] 100 0)
    [97] 3 0 [] [0] [0, 0, 0, 0] (by decide) (by decide)

/-- Claim C5 counterexample: the round-trip law fails as stated at a non-zero
offset.  With an existing array of length 2 holding [10, 20], writing buffer
[99] at offset 1 (count 1) succeeds, and the subsequent read of count 1 at
offset 1 into a buffer of length 2 ≥ offset + count also succeeds, yet the
resulting slice `out_buf[1..2] = [10]` differs from `buf[0..1] = [99]`: the
read copies from index 0 of the source array, not from the written offset. -/
theorem round_trip_law_cex :
    write_float_array_to (Engine.mk [([97], [(10 : Int), 20])] 100 0).writeArray
        [97] 1 [99] 1
      = some (Except.ok (), Engine.mk [([97], [(10 : Int), 99])] 100 0) ∧
    read_float_array_from (Engine.mk [([97], [(10 : Int), 99])] 100 0).readArray
        [97] 1 [0, 0] 1
      = some (Except.ok (), [(0 : Int), 10]) ∧
    (([(0 : Int), 10].drop 1).take 1 ≠ ([(99 : Int)].take 1)) := by
  refine ⟨rfl, rfl, by decide⟩

/-- Claim C5 amended: round-trip law at offset 0.  For every existing array
at least `count` long and caller buffers at least `count` long,
`write(name, 0, buf, count)` followed by `read(name, count, out_buf, 0)`
succeeds and yields `out_buf[0..count] == buf[0..count]`, in both the 32-bit
and the 64-bit precision variants (engine modelled from the spec). -/
theorem round_trip_law_amended {α : Type} (e : Engine α) (name : List Nat)
    (xs buf out_buf : List α) (count : Nat)
    (hn : ¬ name.contains 0) (hx : List.lookup name e.arrays = some xs)
    (hxs : count ≤ xs.length) (hbuf : count ≤ buf.length)
    (hout : count ≤ out_buf.length) :
    ∃ (e₂ : Engine α) (out₂ : List α),
      write_float_array_to e.writeArray name 0 buf (count : Int)
        = some (Except.ok (), e₂) ∧
      read_float_array_from e₂.readArray name (count : Int) out_buf 0
        = some (Except.ok (), out₂) ∧
      write_double_array_to e.writeArray name 0 buf (count : Int)
        = some (Except.ok (), e₂) ∧
      read_double_array_from e₂.readArray name (count : Int) out_buf 0
        = some (Except.ok (), out₂) ∧
      out₂.take count = buf.take count := by
  have hm : (0 : Nat) ∉ name := by simpa using hn
  have hlt : (buf.take count).length = count := by
    rw [List.length_take]
    omega
  have hwr : e.writeArray name 0 buf (count : Int)
      = (0, { e with
          arrays := updateAssoc e.arrays name (writeSlice xs 0 (buf.take count)) }) := by
    simp only [Engine.writeArray, hx]
    rw [if_neg (by omega)]
    simp
  have hys : writeSlice xs 0 (buf.take count) = buf.take count ++ xs.drop count := by
    simp [writeSlice, hlt]
  have hyslen : (writeSlice xs 0 (buf.take count)).length = xs.length := by
    rw [hys]
    simp [hlt]
    omega
  have hxs2 : (List.lookup name e.arrays).isSome := by rw [hx]; rfl
  have hlook2 :
      List.lookup name (updateAssoc e.arrays name (writeSlice xs 0 (buf.take count)))
        = some (writeSlice xs 0 (buf.take count)) := lookup_updateAssoc _ _ _ hxs2
  have hrd : ({ e with
        arrays := updateAssoc e.arrays name (writeSlice xs 0 (buf.take count)) } :
          Engine α).readArray out_buf name 0 (count : Int)
      = (0, writeSlice out_buf 0 ((writeSlice xs 0 (buf.take count)).take count)) := by
    simp only [Engine.readArray, hlook2]
    rw [if_neg (by rw [hyslen]; omega)]
    simp
  have hystake : (writeSlice xs 0 (buf.take count)).take count = buf.take count := by
    rw [hys]
    exact List.take_left' hlt
  refine ⟨(e.writeArray name 0 buf (count : Int)).2,
    ((e.writeArray name 0 buf (count : Int)).2.readArray out_buf name 0 (count : Int)).2,
    ?_, ?_, ?_, ?_, ?_⟩
  · simp [write_float_array_to, cstringNew, hm, hwr]
  · rw [hwr]
    simp [read_float_array_from, cstringNew, hm, hrd]
  · simp [write_double_array_to, cstringNew, hm, hwr]
  · rw [hwr]
    simp [read_double_array_from, cstringNew, hm, hrd]
  · rw [hwr]
    simp only
    rw [hrd]
    simp only
    rw [hystake]
    simp only [writeSlice, List.take_zero, List.nil_append, Nat.zero_add]
    exact List.take_left' hlt

theorem round_trip_law_amended_wit :
    ∃ (e₂ : Engine Int) (out₂ : List Int),
      write_float_array_to (Engine.mk [([97], [(1 : Int), 2, 3])] 100 0).writeArray
          [97] 0 [7, 8] 2 = some (Except.ok (), e₂) ∧
      read_float_array_from e₂.readArray [97] 2 [0, 0, 0] 0
        = some (Except.ok (), out₂) ∧
      write_double_array_to (Engine.mk [([97], [(1 : Int), 2, 3])] 100 0).writeArray
          [97] 0 [7, 8] 2 = some (Except.ok (), e₂) ∧
      read_double_array_from e₂.readArray [97] 2 [0, 0, 0] 0
        = some (Except.ok (), out₂) ∧
      out₂.take 2 = [(7 : Int), 8].take 2 :=
  round_trip_law_amended (Engine.mk [([97], [(1 : Int), 2, 3])] 100 0) [97]
    [(1 : Int), 2, 3] [7, 8] [0, 0, 0] 2 (by decide) (by rfl) (by decide) (by decide)
    (by decide)
